import Mathlib

/-
Verification of the DDJ-SP1 performance controller.

Shallow embedding of:
  * the deck audio engine (src/public/js/AudioPlayer.js): section timing of
    AudioPlayer.play, roll/reverse resume computation (stopRoll, startReverse,
    stopReverse), cross-deck sync (syncDeckTo, getCurrentPlaybackState) and the
    active-source bookkeeping of play/stop/startRoll/startReverse;
  * the control state manager (ControlStateManager.ts): sticky lock toggles
    (handleShiftedFXPress), pad-mode radio buttons (handleModeButtonPress) and
    stepped tempo selection (handleBeatsKnobChange);
  * the SYNC routing (app.js handleSyncButton) and the harmonic key distance
    (src/public/js/SongList.js getKeyDistance).

JavaScript numbers are modelled as exact rationals (ℚ); MIDI channels, notes
and velocities as naturals.  Maps keyed by deck / (channel, note) become total
functions with the same defaults the source applies on a missing key.
-/

namespace DDJ

/-- Track sections: lead (16 beats) or body (64 beats). -/
inductive Sec where
  | lead
  | body
  deriving DecidableEq, Repr

/-- Beats in a section: `section === 'lead' ? 16 : 64` (AudioPlayer.play). -/
def sectionBeats : Sec → ℚ
  | .lead => 16
  | .body => 64

/-- Automatic lead↔body alternation target (`currentSection === 'lead' ? 'body' : 'lead'`). -/
def nextSection : Sec → Sec
  | .lead => .body
  | .body => .lead

/-- Song record; only the bpm field matters for timing computations. -/
structure Song where
  id : ℕ
  bpm : ℚ
  deriving DecidableEq, Repr

/-- Start offset and duration computed by AudioPlayer.play (lines 461–502):
`beatsPerSecond = bpm/60`, `sectionDuration = sectionBeats/beatsPerSecond`,
`startTime = bodyPosition > 0 ? bodyPosition/beatsPerSecond : 0`,
`playDuration = sectionDuration - startTime`. -/
structure PlayTiming where
  startTime : ℚ
  playDuration : ℚ
  deriving DecidableEq, Repr

/-- Embedding of the timing computation inside AudioPlayer.play. -/
def playTiming (bpm : ℚ) (sec : Sec) (bodyPosition : ℚ) : PlayTiming :=
  let beatsPerSecond := bpm / 60
  let sectionDuration := sectionBeats sec / beatsPerSecond
  let startTime := if bodyPosition > 0 then bodyPosition / beatsPerSecond else 0
  { startTime := startTime, playDuration := sectionDuration - startTime }

/-- Arguments of the engine-level play call issued when a roll/reverse resumes
or a sync fires: section and beat offset (bodyPosition). -/
structure PlayCall where
  song : Song
  sect : Sec
  beatOffset : ℚ
  deriving DecidableEq, Repr

/-- Saved pre-roll state (AudioPlayer.startRoll lines 724–731): position in
seconds into the saved section, the section and the song. -/
structure RollState where
  savedPosition : ℚ
  savedSection : Sec
  savedSong : Song
  deriving DecidableEq, Repr

/-- Resume computation of AudioPlayer.stopRoll (lines 771–821), as a function
of the saved roll state and the elapsed roll duration:
`resumePosition = savedPosition + rollDuration`; if it reaches the section
duration, chain into the other section at the overflow converted to beats,
otherwise replay the same section at `resumePosition` converted to beats. -/
def stopRollResume (rs : RollState) (rollDuration : ℚ) : PlayCall :=
  let resumePosition := rs.savedPosition + rollDuration
  let beatsPerSecond := rs.savedSong.bpm / 60
  let sectionDuration := sectionBeats rs.savedSection / beatsPerSecond
  if resumePosition ≥ sectionDuration then
    { song := rs.savedSong
      sect := nextSection rs.savedSection
      beatOffset := (resumePosition - sectionDuration) * beatsPerSecond }
  else
    { song := rs.savedSong
      sect := rs.savedSection
      beatOffset := resumePosition * beatsPerSecond }

/-- Saved pre-reverse state (AudioPlayer.startReverse lines 869–876); it has
the same shape as the roll state. -/
structure ReverseState where
  savedPosition : ℚ
  savedSection : Sec
  savedSong : Song
  deriving DecidableEq, Repr

/-- Resume computation of AudioPlayer.stopReverse (lines 986–1040).  Unlike
stopRoll it has a third branch clamping to the section start when the
resume position is negative. -/
def stopReverseResume (rs : ReverseState) (reverseDuration : ℚ) : PlayCall :=
  let resumePosition := rs.savedPosition + reverseDuration
  let beatsPerSecond := rs.savedSong.bpm / 60
  let sectionDuration := sectionBeats rs.savedSection / beatsPerSecond
  if resumePosition ≥ sectionDuration then
    { song := rs.savedSong
      sect := nextSection rs.savedSection
      beatOffset := (resumePosition - sectionDuration) * beatsPerSecond }
  else if resumePosition < 0 then
    { song := rs.savedSong
      sect := rs.savedSection
      beatOffset := 0 }
  else
    { song := rs.savedSong
      sect := rs.savedSection
      beatOffset := resumePosition * beatsPerSecond }

/-- Current position captured by startRoll/startReverse (lines 705–711 and
850–856): `playbackStart.sectionStart + elapsedTime` when a playback start is
tracked for the deck, 0 otherwise. -/
def capturedPosition (playbackStart : Option ℚ) (elapsedTime : ℚ) : ℚ :=
  match playbackStart with
  | some sectionStart => sectionStart + elapsedTime
  | none => 0

/-- Seconds into the timeline of the interrupted section at which a resume
play call restarts audible output: `beatOffset / (bpm/60)` into the section it
names, counted past the full saved section when the call chains into the other
section. -/
def resumeSeconds (savedSection : Sec) (bpm : ℚ) (c : PlayCall) : ℚ :=
  let beatsPerSecond := bpm / 60
  if c.sect = savedSection then c.beatOffset / beatsPerSecond
  else sectionBeats savedSection / beatsPerSecond + c.beatOffset / beatsPerSecond

/-! ### ControlStateManager (ControlStateManager.ts) -/

/-- Result record of ControlStateManager.handleShiftedFXPress. -/
structure LockStateChange where
  button : ℕ
  channel : ℕ
  locked : Bool
  deriving DecidableEq, Repr

/-- The shiftedNoteMap lookup of ControlStateManager.getOriginalNote:
99→71 (FX1), 100→72 (FX2), 101→73 (FX3), 102→67 (TAP); identity otherwise. -/
def getOriginalNote (note : ℕ) : ℕ :=
  if note = 99 then 71
  else if note = 100 then 72
  else if note = 101 then 73
  else if note = 102 then 67
  else note

/-- Sticky lock table: lockedButtons keyed by (channel, note); a missing key
reads as `false` (`this.lockedButtons.get(key) || false`). -/
abbrev LockTable := ℕ × ℕ → Bool

/-- ControlStateManager.toggleButtonLock: flip the sticky state of one key. -/
def toggleButtonLock (locked : LockTable) (channel note : ℕ) : Bool × LockTable :=
  let wasLocked := locked (channel, note)
  let nowLocked := !wasLocked
  (nowLocked, Function.update locked (channel, note) nowLocked)

/-- ControlStateManager.handleShiftedFXPress (lines 277–291): velocity 0 is a
release and returns null; otherwise toggle the lock of the unshifted note. -/
def handleShiftedFXPress (locked : LockTable) (channel note velocity : ℕ) :
    Option LockStateChange × LockTable :=
  if velocity = 0 then (none, locked)
  else
    let originalNote := getOriginalNote note
    let r := toggleButtonLock locked channel originalNote
    (some { button := originalNote, channel := channel, locked := r.1 }, r.2)

/-- Pad-mode button notes: HOT CUE (27), ROLL (30), SLICER (32), SAMPLER (34). -/
def modeButtons : List ℕ := [27, 30, 32, 34]

/-- ControlStateManager.isModeButton: channels 0–3 and a mode-button note. -/
def isModeButton (channel note : ℕ) : Bool :=
  (channel == 0 || channel == 1 || channel == 2 || channel == 3) &&
    modeButtons.contains note

/-- Result record of ControlStateManager.handleModeButtonPress. -/
structure ModeChange where
  activeMode : ℕ
  channel : ℕ
  deck : ℕ
  deriving DecidableEq, Repr

/-- Pad-mode table: padModes maps each deck (1–4) to its mode note; reads of a
missing key default to HOT CUE 27 (`this.padModes.get(deck) || 27`). -/
abbrev PadModes := ℕ → ℕ

/-- Initial pad modes: every deck starts with HOT CUE (note 27). -/
def initPadModes : PadModes := fun _ => 27

/-- ControlStateManager.handleModeButtonPress (lines 393–411): a release
(velocity 0) or a non-mode button returns null; otherwise the mode of deck
`channel + 1` is set to the pressed note and a ModeChange is returned —
note that the code performs no comparison with the previously active mode. -/
def handleModeButtonPress (padModes : PadModes) (channel note velocity : ℕ) :
    Option ModeChange × PadModes :=
  if velocity = 0 || !(isModeButton channel note) then (none, padModes)
  else
    let targetDeck := channel + 1
    (some { activeMode := note, channel := channel, deck := targetDeck },
     Function.update padModes targetDeck note)

/-- The ordered tempo list of ControlStateManager: [84, 94, 102]. -/
def tempos : List ℕ := [84, 94, 102]

/-- ControlStateManager.handleBeatsKnobChange (lines 328–360): 64 is the
encoder rest value and yields no change; values below 64 step the tempo index
up (clamped at the top), values above 64 step it down (clamped at 0 —
`Math.max(currentIndex - 1, 0)` coincides with truncated ℕ subtraction).
Returns (null, unchanged) when the clamped index equals the current one. -/
def handleBeatsKnobChange (currentTempo : ℕ) (value : ℕ) : Option ℕ × ℕ :=
  if value = 64 then (none, currentTempo)
  else
    let isClockwise := value < 64
    let currentIndex := tempos.indexOf currentTempo
    let newIndex :=
      if isClockwise then min (currentIndex + 1) (tempos.length - 1)
      else currentIndex - 1
    if newIndex = currentIndex then (none, currentTempo)
    else
      let t := tempos.getD newIndex 0
      (some t, t)

/-! ### Harmonic key distance (SongList.js) -/

/-- SongList.getKeyDistance (lines 59–66): circular distance over the 12-key
space.  Keys are 1–12, so both `% 12` operands are nonnegative and the JS
remainder agrees with Int.emod. -/
def getKeyDistance (key1 key2 : ℤ) : ℤ :=
  if key1 = key2 then 0
  else
    let forward := (key2 - key1 + 12) % 12
    let backward := (key1 - key2 + 12) % 12
    min forward backward

/-! ### Deck tracking state and cross-deck sync (AudioPlayer.js) -/

/-- Per-deck tracking of AudioPlayer: deckSongs, deckSections,
deckPlaybackStarts (contextTime, sectionStart), rollStates and reverseStates,
all read through Map.get (None = missing key). -/
structure DeckState where
  song : Option Song
  sect : Option Sec
  playbackStart : Option (ℚ × ℚ)
  roll : Option RollState
  rev : Option ReverseState
  deriving DecidableEq, Repr

/-- Engine tracking state for the four decks (0-indexed internally). -/
abbrev EngineState := Fin 4 → DeckState

/-- Snapshot returned by AudioPlayer.getCurrentPlaybackState. -/
structure PlaybackSnapshot where
  position : ℚ
  sect : Sec
  song : Song
  deriving DecidableEq, Repr

/-- AudioPlayer.getCurrentPlaybackState (lines 929–946): null unless song,
section and playback start are all tracked; position is
`sectionStart + (currentTime - contextTime)`. -/
def getCurrentPlaybackState (st : EngineState) (now : ℚ) (deck : Fin 4) :
    Option PlaybackSnapshot :=
  match (st deck).song, (st deck).sect, (st deck).playbackStart with
  | some song, some sect, some ps =>
      some { position := ps.2 + (now - ps.1), sect := sect, song := song }
  | _, _, _ => none

/-- Tracking effect of a successful AudioPlayer.play on the target deck:
deckSongs/deckSections are set and deckPlaybackStarts records the context time
and the computed start offset; roll/reverse states are untouched. -/
def applyPlay (st : EngineState) (now : ℚ) (deck : Fin 4) (song : Song)
    (sec : Sec) (beatOffset : ℚ) : EngineState :=
  fun d =>
    if d = deck then
      { st deck with
        song := some song
        sect := some sec
        playbackStart := some (now, (playTiming song.bpm sec beatOffset).startTime) }
    else st d

/-- AudioPlayer.syncDeckTo (lines 953–980): returns the play call dispatched
to the target deck (if any) together with the engine state afterwards.  The
three rejection paths (idle source, no song on target, bpm mismatch) log and
return with the state untouched. -/
def syncDeckTo (st : EngineState) (now : ℚ) (sourceDeck targetDeck : Fin 4) :
    Option PlayCall × EngineState :=
  match getCurrentPlaybackState st now sourceDeck with
  | none => (none, st)
  | some sourceState =>
    match (st targetDeck).song with
    | none => (none, st)
    | some targetSong =>
      if sourceState.song.bpm ≠ targetSong.bpm then (none, st)
      else
        let beatsPerSecond := targetSong.bpm / 60
        let positionInBeats := sourceState.position * beatsPerSecond
        (some { song := targetSong, sect := sourceState.sect, beatOffset := positionInBeats },
         applyPlay st now targetDeck targetSong sourceState.sect positionInBeats)

/-! ### SYNC button routing (app.js handleSyncButton, part_000 lines 306–358) -/

/-- Decks visited by handleSyncButton's for-loop. -/
def syncTargetDecks : List ℕ := [1, 2, 3, 4]

/-- One iteration of handleSyncButton's loop for a target deck: skip the
source deck itself, skip a deck with no loaded song, skip a tempo mismatch;
otherwise dispatch play(targetSong, targetDeck-1, sourceSection,
sourcePosition * targetBpm/60). -/
def syncOneTarget (ss : PlaybackSnapshot) (sourceDeck : ℕ)
    (tracks : ℕ → Option Song) (targetDeck : ℕ) : Option PlayCall :=
  if targetDeck = sourceDeck then none
  else
    match tracks targetDeck with
    | none => none
    | some targetSong =>
      if ss.song.bpm ≠ targetSong.bpm then none
      else
        some { song := targetSong
               sect := ss.sect
               beatOffset := ss.position * (targetSong.bpm / 60) }

/-- app.js handleSyncButton: with no source playback state the handler returns
after a diagnostic; otherwise every deck 1–4 is visited in order and each
non-skipped target receives its play call. -/
def handleSyncButton (sourceDeck : ℕ) (tracks : ℕ → Option Song)
    (sourceState : Option PlaybackSnapshot) : List (ℕ × PlayCall) :=
  match sourceState with
  | none => []
  | some ss =>
      syncTargetDecks.filterMap fun t =>
        (syncOneTarget ss sourceDeck tracks t).map fun c => (t, c)

/-! ### Active-source bookkeeping (AudioPlayer.js)

Model of the buffer sources of one AudioPlayer instance.  Each source created
by the engine gets a fresh numeric id.  For a deck, `live` lists the sources
that have been started and neither stopped nor naturally ended (the sources
currently producing sound), and `tracked` is `activeSources.get(deck)`.  Each
engine entry point acts on these exactly as the code does:

 * `stop` (lines 532–549) stops the tracked source and deletes the map entry;
   fadeOut and spindown reach it through their timeout callbacks;
 * `play` (lines 436–527) calls `stop(deck)` first, then (if the buffer
   loads) starts and registers one fresh source;
 * `startRoll`/`startReverse` (681–765 / 827–922) stop the current source
   *without* deleting the map entry, then on success register a fresh looping
   or reversed source; on a load failure the stale entry remains tracked;
 * `stopRoll`/`stopReverse` (771–821 / 986–1040) stop the tracked source,
   delete the entry and re-enter through `play`;
 * a source that ends naturally stops sounding; its onended callback
   (505–522) deregisters it only if it is still the tracked source for the
   deck, in which case the section chain re-enters `play`. -/

/-- Live and tracked sources of one deck. -/
structure SourceState where
  live : List ℕ
  tracked : Option ℕ
  deriving DecidableEq, Repr

/-- All-deck source bookkeeping plus the fresh-id counter. -/
structure AudioState where
  decks : Fin 4 → SourceState
  nextId : ℕ

/-- Effect of AudioPlayer.stop on a deck's sources: the tracked source (if
any) is stopped and removed from activeSources. -/
def stopTracked (s : SourceState) : SourceState :=
  match s.tracked with
  | some i => { live := s.live.filter fun j => j ≠ i, tracked := none }
  | none => s

/-- Effect of the inline `currentSource.stop()` in startRoll/startReverse:
the tracked source stops sounding but the activeSources entry is kept. -/
def haltTracked (s : SourceState) : SourceState :=
  match s.tracked with
  | some i => { s with live := s.live.filter fun j => j ≠ i }
  | none => s

/-- Starting one fresh source and registering it in activeSources. -/
def spawnSource (s : SourceState) (fresh : ℕ) : SourceState :=
  { live := s.live ++ [fresh], tracked := some fresh }

/-- Engine operations that touch a deck's sources.  The Bool flags record
whether the awaited buffer load succeeded (`loadOk`) and, for stopRoll and
stopReverse, whether a roll/reverse was active; sourceEnded carries the id of
the naturally ended source and the load flag of the chained play. -/
inductive EngineOp where
  | stop (deck : Fin 4)
  | fadeOutFire (deck : Fin 4)
  | spindownFire (deck : Fin 4)
  | play (deck : Fin 4) (loadOk : Bool)
  | startRoll (deck : Fin 4) (loadOk : Bool)
  | startReverse (deck : Fin 4) (loadOk : Bool)
  | stopRoll (deck : Fin 4) (rollActive : Bool) (loadOk : Bool)
  | stopReverse (deck : Fin 4) (revActive : Bool) (loadOk : Bool)
  | sourceEnded (deck : Fin 4) (src : ℕ) (loadOk : Bool)

/-- Deck addressed by an operation. -/
def EngineOp.deck : EngineOp → Fin 4
  | .stop d => d
  | .fadeOutFire d => d
  | .spindownFire d => d
  | .play d _ => d
  | .startRoll d _ => d
  | .startReverse d _ => d
  | .stopRoll d _ _ => d
  | .stopReverse d _ _ => d
  | .sourceEnded d _ _ => d

/-- Source effect of one operation on its deck. -/
def deckStep (op : EngineOp) (fresh : ℕ) (s : SourceState) : SourceState :=
  match op with
  | .stop _ => stopTracked s
  | .fadeOutFire _ => stopTracked s
  | .spindownFire _ => stopTracked s
  | .play _ loadOk =>
      if loadOk then spawnSource (stopTracked s) fresh else stopTracked s
  | .startRoll _ loadOk =>
      if loadOk then spawnSource (haltTracked s) fresh else haltTracked s
  | .startReverse _ loadOk =>
      if loadOk then spawnSource (haltTracked s) fresh else haltTracked s
  | .stopRoll _ rollActive loadOk =>
      if rollActive then
        if loadOk then spawnSource (stopTracked s) fresh else stopTracked s
      else s
  | .stopReverse _ revActive loadOk =>
      if revActive then
        if loadOk then spawnSource (stopTracked s) fresh else stopTracked s
      else s
  | .sourceEnded _ src loadOk =>
      if s.tracked = some src then
        let s1 : SourceState := { live := s.live.filter fun j => j ≠ src, tracked := none }
        if loadOk then spawnSource s1 fresh else s1
      else { s with live := s.live.filter fun j => j ≠ src }

/-- One engine operation applied to the four-deck state. -/
def audioStep (st : AudioState) (op : EngineOp) : AudioState :=
  { decks := fun d => if d = op.deck then deckStep op st.nextId (st.decks d) else st.decks d
    nextId := st.nextId + 1 }

/-- Freshly constructed AudioPlayer: no sources exist. -/
def initAudioState : AudioState :=
  { decks := fun _ => { live := [], tracked := none }, nextId := 0 }

/-- State after a sequence of engine operations. -/
def runOps (ops : List EngineOp) : AudioState :=
  ops.foldl audioStep initAudioState

/-- Per-deck source invariant: at most one live source, and any live source is
the tracked one. -/
def SourceInv (s : SourceState) : Prop :=
  s.live.length ≤ 1 ∧ ∀ i ∈ s.live, s.tracked = some i

/-- All-deck source invariant. -/
def AudioInv (st : AudioState) : Prop :=
  ∀ d, SourceInv (st.decks d)

lemma live_nil_of_tracked_none (s : SourceState) (h : SourceInv s)
    (ht : s.tracked = none) : s.live = [] := by
  rcases h with ⟨-, h2⟩
  cases hl : s.live with
  | nil => rfl
  | cons a t =>
      have ha := h2 a (by simp [hl])
      rw [ht] at ha
      cases ha

lemma filter_ne_tracked_nil (s : SourceState) (h : SourceInv s) (i : ℕ)
    (ht : s.tracked = some i) : (s.live.filter fun j => j ≠ i) = [] := by
  rcases h with ⟨-, h2⟩
  refine List.filter_eq_nil_iff.mpr fun j hj => ?_
  have hji := h2 j hj
  rw [ht] at hji
  simp_all

lemma stopTracked_live (s : SourceState) (h : SourceInv s) :
    (stopTracked s).live = [] := by
  cases ht : s.tracked with
  | none =>
      simp only [stopTracked, ht]
      exact live_nil_of_tracked_none s h ht
  | some i =>
      simp only [stopTracked, ht]
      exact filter_ne_tracked_nil s h i ht

lemma haltTracked_live (s : SourceState) (h : SourceInv s) :
    (haltTracked s).live = [] := by
  cases ht : s.tracked with
  | none =>
      simp only [haltTracked, ht]
      exact live_nil_of_tracked_none s h ht
  | some i =>
      simp only [haltTracked, ht]
      exact filter_ne_tracked_nil s h i ht

lemma sourceInv_of_live_nil (s : SourceState) (h : s.live = []) : SourceInv s := by
  simp [SourceInv, h]

lemma spawnSource_inv (s : SourceState) (fresh : ℕ) (h : s.live = []) :
    SourceInv (spawnSource s fresh) := by
  simp [SourceInv, spawnSource, h]

lemma deckStep_inv (op : EngineOp) (fresh : ℕ) (s : SourceState)
    (h : SourceInv s) : SourceInv (deckStep op fresh s) := by
  cases op with
  | stop d => exact sourceInv_of_live_nil _ (stopTracked_live s h)
  | fadeOutFire d => exact sourceInv_of_live_nil _ (stopTracked_live s h)
  | spindownFire d => exact sourceInv_of_live_nil _ (stopTracked_live s h)
  | play d loadOk =>
      cases loadOk with
      | false => exact sourceInv_of_live_nil _ (stopTracked_live s h)
      | true =>
          simp only [deckStep, if_pos]
          exact spawnSource_inv _ fresh (stopTracked_live s h)
  | startRoll d loadOk =>
      cases loadOk with
      | false => exact sourceInv_of_live_nil _ (haltTracked_live s h)
      | true =>
          simp only [deckStep, if_pos]
          exact spawnSource_inv _ fresh (haltTracked_live s h)
  | startReverse d loadOk =>
      cases loadOk with
      | false => exact sourceInv_of_live_nil _ (haltTracked_live s h)
      | true =>
          simp only [deckStep, if_pos]
          exact spawnSource_inv _ fresh (haltTracked_live s h)
  | stopRoll d rollActive loadOk =>
      cases rollActive with
      | false => exact h
      | true =>
          cases loadOk with
          | false => exact sourceInv_of_live_nil _ (stopTracked_live s h)
          | true =>
              simp only [deckStep, if_pos]
              exact spawnSource_inv _ fresh (stopTracked_live s h)
  | stopReverse d revActive loadOk =>
      cases revActive with
      | false => exact h
      | true =>
          cases loadOk with
          | false => exact sourceInv_of_live_nil _ (stopTracked_live s h)
          | true =>
              simp only [deckStep, if_pos]
              exact spawnSource_inv _ fresh (stopTracked_live s h)
  | sourceEnded d src loadOk =>
      by_cases htr : s.tracked = some src
      · have hnil : (s.live.filter fun j => j ≠ src) = [] :=
          filter_ne_tracked_nil s h src htr
        cases loadOk with
        | false =>
            simp only [deckStep, htr, if_pos]
            exact sourceInv_of_live_nil _ hnil
        | true =>
            simp only [deckStep, htr, if_pos]
            exact spawnSource_inv _ fresh hnil
      · rcases h with ⟨h1, h2⟩
        simp only [deckStep, htr, if_neg, ite_false]
        constructor
        · exact le_trans (List.length_filter_le _ _) h1
        · intro i hi
          exact h2 i (List.mem_of_mem_filter hi)

lemma audioStep_inv (st : AudioState) (op : EngineOp) (h : AudioInv st) :
    AudioInv (audioStep st op) := by
  intro d
  simp only [audioStep]
  by_cases hd : d = op.deck
  · simp only [hd, if_pos rfl]
    exact deckStep_inv op st.nextId _ (h op.deck)
  · simp only [if_neg hd]
    exact h d

lemma foldl_audioStep_inv (ops : List EngineOp) (st : AudioState)
    (h : AudioInv st) : AudioInv (ops.foldl audioStep st) := by
  induction ops generalizing st with
  | nil => exact h
  | cons op rest ih => exact ih (audioStep st op) (audioStep_inv st op h)

lemma initAudioState_inv : AudioInv initAudioState := by
  intro d
  simp [initAudioState, SourceInv]

/-- C2: for every deck, at most one active audio source is tracked at any
instant.  Every sequence of engine operations (play/stop/fadeOut/spindown/
startRoll/startReverse/stopRoll/stopReverse and natural source completions,
each of which stops the deck's current source before starting its own) leaves
at most one concurrently sounding source per deck, and any sounding source is
exactly the one registered in activeSources for that deck. -/
theorem play_single_source_invariant (ops : List EngineOp) (d : Fin 4) :
    ((runOps ops).decks d).live.length ≤ 1 ∧
    ∀ i ∈ ((runOps ops).decks d).live, ((runOps ops).decks d).tracked = some i :=
  foldl_audioStep_inv ops initAudioState initAudioState_inv d

/-- Instantiation of the single-source invariant on a concrete operation
sequence exercising play, roll and natural completion on deck 0. -/
theorem play_single_source_invariant_witness :
    ((runOps [EngineOp.play 0 true, EngineOp.startRoll 0 true,
              EngineOp.stopRoll 0 true true, EngineOp.sourceEnded 0 3 true]).decks 0).live.length ≤ 1 ∧
    ∀ i ∈ ((runOps [EngineOp.play 0 true, EngineOp.startRoll 0 true,
              EngineOp.stopRoll 0 true true, EngineOp.sourceEnded 0 3 true]).decks 0).live,
      ((runOps [EngineOp.play 0 true, EngineOp.startRoll 0 true,
              EngineOp.stopRoll 0 true true, EngineOp.sourceEnded 0 3 true]).decks 0).tracked = some i :=
  play_single_source_invariant
    [EngineOp.play 0 true, EngineOp.startRoll 0 true,
     EngineOp.stopRoll 0 true true, EngineOp.sourceEnded 0 3 true] 0

/-! ### Roll / reverse resume and play timing -/

lemma playTiming_def (bpm : ℚ) (sec : Sec) (bodyPosition : ℚ) :
    playTiming bpm sec bodyPosition =
      { startTime := if bodyPosition > 0 then bodyPosition / (bpm / 60) else 0
        playDuration := sectionBeats sec / (bpm / 60) -
          if bodyPosition > 0 then bodyPosition / (bpm / 60) else 0 } := rfl

lemma stopRollResume_def (rs : RollState) (d : ℚ) :
    stopRollResume rs d =
      if rs.savedPosition + d ≥ sectionBeats rs.savedSection / (rs.savedSong.bpm / 60) then
        { song := rs.savedSong
          sect := nextSection rs.savedSection
          beatOffset := (rs.savedPosition + d -
            sectionBeats rs.savedSection / (rs.savedSong.bpm / 60)) * (rs.savedSong.bpm / 60) }
      else
        { song := rs.savedSong
          sect := rs.savedSection
          beatOffset := (rs.savedPosition + d) * (rs.savedSong.bpm / 60) } := rfl

lemma stopReverseResume_def (rs : ReverseState) (d : ℚ) :
    stopReverseResume rs d =
      if rs.savedPosition + d ≥ sectionBeats rs.savedSection / (rs.savedSong.bpm / 60) then
        { song := rs.savedSong
          sect := nextSection rs.savedSection
          beatOffset := (rs.savedPosition + d -
            sectionBeats rs.savedSection / (rs.savedSong.bpm / 60)) * (rs.savedSong.bpm / 60) }
      else if rs.savedPosition + d < 0 then
        { song := rs.savedSong, sect := rs.savedSection, beatOffset := 0 }
      else
        { song := rs.savedSong
          sect := rs.savedSection
          beatOffset := (rs.savedPosition + d) * (rs.savedSong.bpm / 60) } := rfl

lemma nextSection_ne (s : Sec) : nextSection s ≠ s := by
  cases s <;> simp [nextSection]

lemma beats_roundtrip (bpm x : ℚ) (hbpm : 0 < bpm) :
    x * (bpm / 60) / (bpm / 60) = x := by
  have h : bpm / 60 ≠ 0 := by positivity
  field_simp

lemma playTiming_startTime_of_nonneg (bpm x : ℚ) (sec : Sec)
    (hbpm : 0 < bpm) (hx : 0 ≤ x) :
    (playTiming bpm sec (x * (bpm / 60))).startTime = x := by
  have hbps : (0:ℚ) < bpm / 60 := by positivity
  rw [playTiming_def]
  rcases hx.lt_or_eq with hx' | hx'
  · rw [if_pos (mul_pos hx' hbps)]
    exact beats_roundtrip bpm x hbpm
  · rw [← hx', zero_mul, if_neg (lt_irrefl 0)]

/-- C1: stopRoll computes the resume position as the saved pre-roll position
plus the elapsed roll duration.  If that position is below the saved section's
duration `sectionBeats/(bpm/60)`, it resumes the same section at the position
converted to beats — and the resulting play call starts exactly at the resume
position, so a stopRoll with zero elapsed time resumes at the exact pre-roll
position and section.  If the resume position reaches or exceeds the section
duration, it chains into the other section at the overflow converted to
beats. -/
theorem stopRoll_resume_correct (rs : RollState) (d : ℚ)
    (hbpm : 0 < rs.savedSong.bpm) (hpos : 0 ≤ rs.savedPosition) (hd : 0 ≤ d) :
    (rs.savedPosition + d < sectionBeats rs.savedSection / (rs.savedSong.bpm / 60) →
      stopRollResume rs d =
        { song := rs.savedSong
          sect := rs.savedSection
          beatOffset := (rs.savedPosition + d) * (rs.savedSong.bpm / 60) } ∧
      (playTiming rs.savedSong.bpm rs.savedSection
          ((rs.savedPosition + d) * (rs.savedSong.bpm / 60))).startTime
        = rs.savedPosition + d) ∧
    (sectionBeats rs.savedSection / (rs.savedSong.bpm / 60) ≤ rs.savedPosition + d →
      stopRollResume rs d =
        { song := rs.savedSong
          sect := nextSection rs.savedSection
          beatOffset := (rs.savedPosition + d -
            sectionBeats rs.savedSection / (rs.savedSong.bpm / 60)) * (rs.savedSong.bpm / 60) }) ∧
    (d = 0 → rs.savedPosition < sectionBeats rs.savedSection / (rs.savedSong.bpm / 60) →
      stopRollResume rs 0 =
        { song := rs.savedSong
          sect := rs.savedSection
          beatOffset := rs.savedPosition * (rs.savedSong.bpm / 60) } ∧
      (playTiming rs.savedSong.bpm rs.savedSection
          (rs.savedPosition * (rs.savedSong.bpm / 60))).startTime = rs.savedPosition) := by
  refine ⟨fun h => ⟨?_, ?_⟩, fun h => ?_, fun hd0 hlt => ⟨?_, ?_⟩⟩
  · rw [stopRollResume_def, if_neg (not_le.mpr h)]
  · exact playTiming_startTime_of_nonneg _ _ _ hbpm (by linarith)
  · rw [stopRollResume_def, if_pos h]
  · rw [stopRollResume_def, if_neg (by simpa using not_le.mpr hlt)]
    simp
  · exact playTiming_startTime_of_nonneg _ _ _ hbpm hpos

/-- Instantiation of stopRoll resume correctness: a roll saved at 2s into the
lead section of a 94 BPM song, stopped after 1s, resumes the lead section at
beat 3·(94/60) = 4.7, i.e. exactly 3s in. -/
theorem stopRoll_resume_correct_witness :
    stopRollResume ⟨2, Sec.lead, ⟨1, 94⟩⟩ 1 =
      { song := ⟨1, 94⟩, sect := Sec.lead, beatOffset := (2 + 1) * (94 / 60) } ∧
    (playTiming 94 Sec.lead ((2 + 1) * (94 / 60))).startTime = 2 + 1 :=
  (stopRoll_resume_correct ⟨2, Sec.lead, ⟨1, 94⟩⟩ 1 (by norm_num) (by norm_num)
    (by norm_num)).1 (by norm_num [sectionBeats])

/-- C5: play schedules the start offset `beatOffset/(bpm/60)` and the duration
`sectionBeats/(bpm/60) - startTime`, with 16 lead beats and 64 body beats; at
94 BPM on the body section with beat offset 1.0 this is exactly 30/47 ≈ 0.638s
and 1890/47 ≈ 40.2s. -/
theorem play_timing_correct (bpm : ℚ) (sec : Sec) (beatOffset : ℚ)
    (_hbpm : 0 < bpm) (hoff : 0 ≤ beatOffset) :
    (playTiming bpm sec beatOffset).startTime = beatOffset / (bpm / 60) ∧
    (playTiming bpm sec beatOffset).playDuration
      = sectionBeats sec / (bpm / 60) - beatOffset / (bpm / 60) ∧
    sectionBeats Sec.lead = 16 ∧ sectionBeats Sec.body = 64 ∧
    (playTiming 94 Sec.body 1).startTime = 30 / 47 ∧
    (playTiming 94 Sec.body 1).playDuration = 1890 / 47 ∧
    |(playTiming 94 Sec.body 1).startTime - 638 / 1000| < 1 / 1000 ∧
    |(playTiming 94 Sec.body 1).playDuration - 40225 / 1000| < 13 / 1000 := by
  have hstart : (playTiming bpm sec beatOffset).startTime = beatOffset / (bpm / 60) := by
    rw [playTiming_def]
    rcases hoff.lt_or_eq with h | h
    · rw [if_pos h]
    · rw [← h, if_neg (lt_irrefl 0), zero_div]
  refine ⟨hstart, ?_, rfl, rfl, ?_, ?_, ?_, ?_⟩
  · rw [playTiming_def] at hstart ⊢
    simp only at hstart ⊢
    rw [hstart]
  · norm_num [playTiming_def, sectionBeats]
  · norm_num [playTiming_def, sectionBeats]
  · rw [show (playTiming 94 Sec.body 1).startTime = 30 / 47 by
      norm_num [playTiming_def, sectionBeats]]
    rw [abs_lt]
    constructor <;> norm_num
  · rw [show (playTiming 94 Sec.body 1).playDuration = 1890 / 47 by
      norm_num [playTiming_def, sectionBeats]]
    rw [abs_lt]
    constructor <;> norm_num

/-- Instantiation of the play timing at 94 BPM, body section, beat offset 1. -/
theorem play_timing_correct_witness :
    (playTiming 94 Sec.body 1).startTime = 1 / ((94:ℚ) / 60) ∧
    (playTiming 94 Sec.body 1).playDuration
      = sectionBeats Sec.body / ((94:ℚ) / 60) - 1 / ((94:ℚ) / 60) :=
  ⟨(play_timing_correct 94 Sec.body 1 (by norm_num) (by norm_num)).1,
   (play_timing_correct 94 Sec.body 1 (by norm_num) (by norm_num)).2.1⟩

/-- C10: for every reverse state captured by startReverse (a nonnegative
section start offset plus nonnegative elapsed clock time, or 0 when nothing
was tracked) and every nonnegative elapsed reverse duration, the saved
position is nonnegative, the `resumePosition < 0` clamp branch of stopReverse
is unreachable (its guard is false and stopReverse agrees with the clamp-free
stopRoll computation), and the resume play call restarts exactly at
savedPosition + elapsed, at or after the pre-reverse position. -/
theorem stopReverse_clamp_unreachable (ps : Option ℚ) (e d : ℚ) (sec : Sec)
    (song : Song) (hps : ∀ s ∈ ps, 0 ≤ s) (he : 0 ≤ e) (hd : 0 ≤ d)
    (hbpm : 0 < song.bpm) :
    0 ≤ capturedPosition ps e ∧
    ¬(capturedPosition ps e + d < 0) ∧
    stopReverseResume ⟨capturedPosition ps e, sec, song⟩ d
      = stopRollResume ⟨capturedPosition ps e, sec, song⟩ d ∧
    resumeSeconds sec song.bpm
        (stopReverseResume ⟨capturedPosition ps e, sec, song⟩ d)
      = capturedPosition ps e + d ∧
    capturedPosition ps e ≤ capturedPosition ps e + d := by
  have hsaved : 0 ≤ capturedPosition ps e := by
    cases ps with
    | none => simp [capturedPosition]
    | some s =>
        have := hps s rfl
        simp only [capturedPosition]
        linarith
  have hres : 0 ≤ capturedPosition ps e + d := by linarith
  have hbps : (0:ℚ) < song.bpm / 60 := by positivity
  refine ⟨hsaved, not_lt.mpr hres, ?_, ?_, by linarith⟩
  · rw [stopReverseResume_def, stopRollResume_def]
    by_cases h : capturedPosition ps e + d ≥
        sectionBeats sec / (song.bpm / 60)
    · simp only at h ⊢
      rw [if_pos h, if_pos h]
    · simp only at h ⊢
      rw [if_neg h, if_neg h, if_neg (not_lt.mpr hres)]
  · rw [stopReverseResume_def]
    by_cases h : capturedPosition ps e + d ≥
        sectionBeats sec / (song.bpm / 60)
    · simp only at h ⊢
      rw [if_pos h]
      simp only [resumeSeconds, if_neg (nextSection_ne sec)]
      rw [mul_div_assoc, div_self hbps.ne', mul_one]
      ring
    · simp only at h ⊢
      rw [if_neg h, if_neg (not_lt.mpr hres)]
      simp only [resumeSeconds]
      rw [mul_div_assoc, div_self hbps.ne', mul_one]
      simp

/-- Instantiation of the stopReverse clamp analysis: reverse started 3s into a
section (start offset 2s + 1s elapsed) on a 94 BPM song, stopped after 3s,
resumes at 6s — the clamp branch does not fire. -/
theorem stopReverse_clamp_unreachable_witness :
    0 ≤ capturedPosition (some 2) 1 ∧
    ¬(capturedPosition (some 2) 1 + 3 < 0) ∧
    stopReverseResume ⟨capturedPosition (some 2) 1, Sec.lead, ⟨1, 94⟩⟩ 3
      = stopRollResume ⟨capturedPosition (some 2) 1, Sec.lead, ⟨1, 94⟩⟩ 3 ∧
    resumeSeconds Sec.lead (94:ℚ)
        (stopReverseResume ⟨capturedPosition (some 2) 1, Sec.lead, ⟨1, 94⟩⟩ 3)
      = capturedPosition (some 2) 1 + 3 ∧
    capturedPosition (some 2) 1 ≤ capturedPosition (some 2) 1 + 3 :=
  stopReverse_clamp_unreachable (some 2) 1 3 Sec.lead ⟨1, 94⟩
    (by
      intro s hs
      simp only [Option.mem_def, Option.some.injEq] at hs
      subst hs
      norm_num)
    (by norm_num) (by norm_num) (by norm_num)

/-! ### Pad-mode radio buttons, tempo stepping, lock toggles -/

/-- C3: evaluation of handleModeButtonPress at the input the claim fails on.
With every deck in the default HOT CUE mode (note 27), pressing the HOT CUE
mode button of deck 1 (channel 0, note 27, velocity 127) — the mode that is
already active — still returns a ModeChange record instead of null, while the
stored mode for deck 1 does not differ before and after: the code reports a
change on a no-op re-press, contradicting the claim (and the function's own
doc comment, which promises null when the mode did not change). -/
theorem handleModeButtonPress_repress_reports_change :
    initPadModes 1 = 27 ∧
    (handleModeButtonPress initPadModes 0 27 127).1 =
      some { activeMode := 27, channel := 0, deck := 1 } ∧
    (handleModeButtonPress initPadModes 0 27 127).2 1 = 27 := by
  refine ⟨rfl, ?_, ?_⟩
  · decide
  · simp [handleModeButtonPress, isModeButton, modeButtons, initPadModes]

lemma handleBeatsKnobChange_def (cur v : ℕ) :
    handleBeatsKnobChange cur v =
      if v = 64 then (none, cur)
      else
        if (if v < 64 then min (tempos.indexOf cur + 1) (tempos.length - 1)
            else tempos.indexOf cur - 1) = tempos.indexOf cur then (none, cur)
        else
          (some (tempos.getD
              (if v < 64 then min (tempos.indexOf cur + 1) (tempos.length - 1)
               else tempos.indexOf cur - 1) 0),
           tempos.getD
              (if v < 64 then min (tempos.indexOf cur + 1) (tempos.length - 1)
               else tempos.indexOf cur - 1) 0) := rfl

lemma hbkc_center (cur : ℕ) : handleBeatsKnobChange cur 64 = (none, cur) := by
  rw [handleBeatsKnobChange_def, if_pos rfl]

lemma hbkc_84_up (v : ℕ) (hv : v < 64) :
    handleBeatsKnobChange 84 v = (some 94, 94) := by
  rw [handleBeatsKnobChange_def]
  simp only [if_neg (by omega : ¬ v = 64), if_pos hv]
  decide

lemma hbkc_94_up (v : ℕ) (hv : v < 64) :
    handleBeatsKnobChange 94 v = (some 102, 102) := by
  rw [handleBeatsKnobChange_def]
  simp only [if_neg (by omega : ¬ v = 64), if_pos hv]
  decide

lemma hbkc_102_up (v : ℕ) (hv : v < 64) :
    handleBeatsKnobChange 102 v = (none, 102) := by
  rw [handleBeatsKnobChange_def]
  simp only [if_neg (by omega : ¬ v = 64), if_pos hv]
  decide

lemma hbkc_84_down (v : ℕ) (hv : 64 < v) :
    handleBeatsKnobChange 84 v = (none, 84) := by
  rw [handleBeatsKnobChange_def]
  simp only [if_neg (by omega : ¬ v = 64), if_neg (by omega : ¬ v < 64)]
  decide

lemma hbkc_94_down (v : ℕ) (hv : 64 < v) :
    handleBeatsKnobChange 94 v = (some 84, 84) := by
  rw [handleBeatsKnobChange_def]
  simp only [if_neg (by omega : ¬ v = 64), if_neg (by omega : ¬ v < 64)]
  decide

lemma hbkc_102_down (v : ℕ) (hv : 64 < v) :
    handleBeatsKnobChange 102 v = (some 94, 94) := by
  rw [handleBeatsKnobChange_def]
  simp only [if_neg (by omega : ¬ v = 64), if_neg (by omega : ¬ v < 64)]
  decide

/-- C4: tempo stepping moves exactly one position in the ordered list
[84, 94, 102] per step and clamps without wraparound: stepping up from 102 or
down from 84 returns null and leaves the tempo unchanged; the stored tempo
always remains an element of the list; direction is derived from the encoder
value being below (step up) or above (step down) the center value 64, and the
center value itself produces no change. -/
theorem stepTempo_clamps (cur v : ℕ) (hcur : cur ∈ tempos) :
    (handleBeatsKnobChange cur v).2 ∈ tempos ∧
    (v = 64 → handleBeatsKnobChange cur v = (none, cur)) ∧
    (cur = 102 → v < 64 → handleBeatsKnobChange cur v = (none, 102)) ∧
    (cur = 84 → 64 < v → handleBeatsKnobChange cur v = (none, 84)) ∧
    (∀ t, (handleBeatsKnobChange cur v).1 = some t →
      (handleBeatsKnobChange cur v).2 = t ∧ t ∈ tempos ∧
      ((v < 64 ∧ tempos.indexOf t = tempos.indexOf cur + 1) ∨
       (64 < v ∧ tempos.indexOf t + 1 = tempos.indexOf cur))) := by
  simp only [tempos, List.mem_cons, List.not_mem_nil, or_false] at hcur
  rcases hcur with rfl | rfl | rfl <;>
    rcases Nat.lt_trichotomy v 64 with hv | rfl | hv
  · rw [hbkc_84_up v hv]
    exact ⟨by decide, fun h => absurd h (by omega), fun h => absurd h (by decide),
      fun _ h => absurd h (by omega),
      fun t ht => by
        obtain rfl : (94:ℕ) = t := by simpa using ht
        exact ⟨rfl, by decide, Or.inl ⟨hv, by decide⟩⟩⟩
  · rw [hbkc_center 84]
    exact ⟨by decide, fun _ => rfl, fun h => absurd h (by decide),
      fun _ h => absurd h (by omega), fun t ht => by simp at ht⟩
  · rw [hbkc_84_down v hv]
    exact ⟨by decide, fun h => absurd h (by omega), fun h => absurd h (by decide),
      fun _ _ => rfl, fun t ht => by simp at ht⟩
  · rw [hbkc_94_up v hv]
    exact ⟨by decide, fun h => absurd h (by omega), fun h => absurd h (by decide),
      fun h => absurd h (by decide),
      fun t ht => by
        obtain rfl : (102:ℕ) = t := by simpa using ht
        exact ⟨rfl, by decide, Or.inl ⟨hv, by decide⟩⟩⟩
  · rw [hbkc_center 94]
    exact ⟨by decide, fun _ => rfl, fun h => absurd h (by decide),
      fun h => absurd h (by decide), fun t ht => by simp at ht⟩
  · rw [hbkc_94_down v hv]
    exact ⟨by decide, fun h => absurd h (by omega), fun h => absurd h (by decide),
      fun h => absurd h (by decide),
      fun t ht => by
        obtain rfl : (84:ℕ) = t := by simpa using ht
        exact ⟨rfl, by decide, Or.inr ⟨hv, by decide⟩⟩⟩
  · rw [hbkc_102_up v hv]
    exact ⟨by decide, fun h => absurd h (by omega), fun _ _ => rfl,
      fun h => absurd h (by decide), fun t ht => by simp at ht⟩
  · rw [hbkc_center 102]
    exact ⟨by decide, fun _ => rfl, fun _ h => absurd h (by omega),
      fun h => absurd h (by decide), fun t ht => by simp at ht⟩
  · rw [hbkc_102_down v hv]
    exact ⟨by decide, fun h => absurd h (by omega), fun _ h => absurd h (by omega),
      fun h => absurd h (by decide),
      fun t ht => by
        obtain rfl : (94:ℕ) = t := by simpa using ht
        exact ⟨rfl, by decide, Or.inr ⟨hv, by decide⟩⟩⟩

/-- Instantiation of tempo-step clamping: stepping up (encoder value 1 < 64)
with the tempo already at 102 returns null and leaves 102. -/
theorem stepTempo_clamps_witness : handleBeatsKnobChange 102 1 = (none, 102) :=
  (stepTempo_clamps 102 1 (by decide)).2.2.1 rfl (by decide)

/-- C6: a shift-modified lock press with velocity 0 (a release) returns null
and leaves the lock table exactly as it was; any nonzero velocity flips
exactly the sticky lock state of (channel, original note) — every other
button's lock state is untouched — and returns the new state. -/
theorem toggleLock_release_noop (locked : LockTable) (channel note velocity : ℕ) :
    (velocity = 0 → handleShiftedFXPress locked channel note velocity = (none, locked)) ∧
    (velocity ≠ 0 →
      (handleShiftedFXPress locked channel note velocity).1 =
        some { button := getOriginalNote note, channel := channel,
               locked := !(locked (channel, getOriginalNote note)) } ∧
      (handleShiftedFXPress locked channel note velocity).2
          (channel, getOriginalNote note) = !(locked (channel, getOriginalNote note)) ∧
      ∀ k : ℕ × ℕ, k ≠ (channel, getOriginalNote note) →
        (handleShiftedFXPress locked channel note velocity).2 k = locked k) := by
  constructor
  · intro h
    simp [handleShiftedFXPress, h]
  · intro h
    refine ⟨?_, ?_, ?_⟩
    · simp [handleShiftedFXPress, toggleButtonLock, h]
    · simp [handleShiftedFXPress, toggleButtonLock, h]
    · intro k hk
      simp [handleShiftedFXPress, toggleButtonLock, h, Function.update_noteq hk]

/-- Instantiation of the lock toggle: on the empty lock table, a release of
shifted FX1 (channel 4, note 99, velocity 0) changes nothing, and a press
(velocity 127) locks the unshifted FX1 button 71. -/
theorem toggleLock_release_noop_witness :
    handleShiftedFXPress (fun _ => false) 4 99 0 = (none, fun _ => false) ∧
    (handleShiftedFXPress (fun _ => false) 4 99 127).1 =
      some { button := getOriginalNote 99, channel := 4,
             locked := !((fun _ => false) (4, getOriginalNote 99)) } :=
  ⟨(toggleLock_release_noop (fun _ => false) 4 99 0).1 rfl,
   ((toggleLock_release_noop (fun _ => false) 4 99 127).2 (by omega)).1⟩

/-! ### Cross-deck sync -/

/-- C7: syncDeckTo is atomic on rejection.  If the source deck is idle (no
playback state) it performs no state mutation at all; likewise when the
target deck has no loaded song or the two songs' BPM differ.  Otherwise it
dispatches exactly one play call on the target with the source's section and
the source's elapsed seconds converted to beats with the target's BPM. -/
theorem syncTo_atomic (st : EngineState) (now : ℚ) (src tgt : Fin 4) :
    (getCurrentPlaybackState st now src = none →
      syncDeckTo st now src tgt = (none, st)) ∧
    (∀ ss, getCurrentPlaybackState st now src = some ss →
      ((st tgt).song = none → syncDeckTo st now src tgt = (none, st)) ∧
      ∀ ts, (st tgt).song = some ts →
        (ss.song.bpm ≠ ts.bpm → syncDeckTo st now src tgt = (none, st)) ∧
        (ss.song.bpm = ts.bpm →
          syncDeckTo st now src tgt =
            (some { song := ts, sect := ss.sect,
                    beatOffset := ss.position * (ts.bpm / 60) },
             applyPlay st now tgt ts ss.sect (ss.position * (ts.bpm / 60))))) := by
  constructor
  · intro h
    simp [syncDeckTo, h]
  · intro ss hss
    refine ⟨?_, ?_⟩
    · intro h
      simp [syncDeckTo, hss, h]
    · intro ts hts
      constructor
      · intro hbpm
        simp [syncDeckTo, hss, hts, hbpm]
      · intro hbpm
        simp [syncDeckTo, hss, hts, hbpm]

/-- Concrete engine state: deck 0 playing song 1 (94 BPM, body section,
started at context time 0 with start offset 0), deck 1 holding song 2
(102 BPM) without playing, decks 2 and 3 empty. -/
def sampleEngine : EngineState := fun d =>
  if d = 0 then
    { song := some ⟨1, 94⟩, sect := some Sec.body, playbackStart := some (0, 0),
      roll := none, rev := none }
  else if d = 1 then
    { song := some ⟨2, 102⟩, sect := none, playbackStart := none,
      roll := none, rev := none }
  else
    { song := none, sect := none, playbackStart := none, roll := none, rev := none }

/-- Instantiation of sync atomicity: syncing deck 0 (94 BPM) onto deck 1
(102 BPM) is rejected without touching the state, and syncing from the idle
deck 2 is rejected as well. -/
theorem syncTo_atomic_witness :
    syncDeckTo sampleEngine 5 0 1 = (none, sampleEngine) ∧
    syncDeckTo sampleEngine 5 2 3 = (none, sampleEngine) :=
  ⟨(((syncTo_atomic sampleEngine 5 0 1).2
      { position := 5, sect := Sec.body, song := ⟨1, 94⟩ }
      (by norm_num [getCurrentPlaybackState, sampleEngine])).2
      ⟨2, 102⟩ rfl).1 (by norm_num),
   (syncTo_atomic sampleEngine 5 2 3).1 rfl⟩

lemma mem_tagged_filterMap (l : List ℕ) (g : ℕ → Option PlayCall) (t : ℕ)
    (c : PlayCall) :
    ((t, c) ∈ l.filterMap fun x => (g x).map fun y => (x, y)) ↔
      t ∈ l ∧ g t = some c := by
  simp only [List.mem_filterMap, Option.map_eq_some']
  constructor
  · rintro ⟨x, hx, y, hy, heq⟩
    obtain ⟨rfl, rfl⟩ : x = t ∧ y = c := by simpa using heq
    exact ⟨hx, hy⟩
  · rintro ⟨ht, hg⟩
    exact ⟨t, ht, c, hg, rfl⟩

/-- C8: a SYNC press with an active source playback state visits every deck
1–4; a pair (t, call) is dispatched exactly when deck t passes its own
per-target test (t is not the source, has a loaded song, and its BPM matches
the source's), so one deck's skip never prevents another deck's sync; each
skipped deck (the source itself, a deck with no song, a BPM mismatch)
receives nothing; each synced deck receives play(targetSong, sourceSection,
sourcePosition · targetBpm/60).  With no source playback state nothing is
dispatched. -/
theorem syncButton_all_decks (src : ℕ) (tracks : ℕ → Option Song)
    (ss : PlaybackSnapshot) :
    handleSyncButton src tracks none = [] ∧
    (∀ t c, ((t, c) ∈ handleSyncButton src tracks (some ss)) ↔
      (t ∈ syncTargetDecks ∧ syncOneTarget ss src tracks t = some c)) ∧
    (∀ t, t = src → syncOneTarget ss src tracks t = none) ∧
    (∀ t, tracks t = none → syncOneTarget ss src tracks t = none) ∧
    (∀ t song, t ≠ src → tracks t = some song → ss.song.bpm ≠ song.bpm →
      syncOneTarget ss src tracks t = none) ∧
    (∀ t song, t ≠ src → tracks t = some song → ss.song.bpm = song.bpm →
      syncOneTarget ss src tracks t =
        some { song := song, sect := ss.sect,
               beatOffset := ss.position * (song.bpm / 60) }) := by
  refine ⟨rfl, ?_, ?_, ?_, ?_, ?_⟩
  · intro t c
    exact mem_tagged_filterMap syncTargetDecks (syncOneTarget ss src tracks) t c
  · intro t h
    simp [syncOneTarget, h]
  · intro t h
    by_cases hts : t = src <;> simp [syncOneTarget, hts, h]
  · intro t song h1 h2 h3
    simp [syncOneTarget, h1, h2, h3]
  · intro t song h1 h2 h3
    simp [syncOneTarget, h1, h2, h3]

/-- Concrete track table for the sync-button witness: deck 2 holds song 5
(102 BPM), deck 3 holds song 6 (94 BPM), the rest are empty. -/
def sampleTracks : ℕ → Option Song := fun t =>
  if t = 2 then some ⟨5, 102⟩ else if t = 3 then some ⟨6, 94⟩ else none

/-- Concrete source snapshot for the sync-button witness: 2s into the body
section of song 7 at 94 BPM. -/
def sampleSnapshot : PlaybackSnapshot :=
  { position := 2, sect := Sec.body, song := ⟨7, 94⟩ }

/-- Instantiation of the SYNC dispatch: from source deck 1, deck 2 is skipped
for its BPM mismatch while deck 3 is still synced — the skip does not abort
the loop. -/
theorem syncButton_all_decks_witness :
    syncOneTarget sampleSnapshot 1 sampleTracks 2 = none ∧
    syncOneTarget sampleSnapshot 1 sampleTracks 3 =
      some { song := ⟨6, 94⟩, sect := Sec.body, beatOffset := 2 * ((94:ℚ) / 60) } ∧
    ((3, ({ song := ⟨6, 94⟩, sect := Sec.body,
            beatOffset := 2 * ((94:ℚ) / 60) } : PlayCall)) ∈
      handleSyncButton 1 sampleTracks (some sampleSnapshot)) := by
  have h := syncButton_all_decks 1 sampleTracks sampleSnapshot
  refine ⟨h.2.2.2.2.1 2 ⟨5, 102⟩ (by omega) rfl (by norm_num [sampleSnapshot]), ?_, ?_⟩
  · exact h.2.2.2.2.2 3 ⟨6, 94⟩ (by omega) rfl rfl
  · exact (h.2.1 3 _).mpr ⟨by decide, h.2.2.2.2.2 3 ⟨6, 94⟩ (by omega) rfl rfl⟩

/-! ### Harmonic key distance -/

lemma getKeyDistance_def (key1 key2 : ℤ) :
    getKeyDistance key1 key2 =
      if key1 = key2 then 0
      else min ((key2 - key1 + 12) % 12) ((key1 - key2 + 12) % 12) := rfl

/-- C9: the harmonic key distance over the 12-key circular space is 0 on
equal keys, 1 between keys 1 and 12, 6 between keys 1 and 7; it equals the
minimum of the forward and backward circular differences modulo 12, and 6 is
the maximum over the key range 1–12. -/
theorem keyDistance_circular (k k1 k2 : ℤ) :
    getKeyDistance k k = 0 ∧
    getKeyDistance 1 12 = 1 ∧
    getKeyDistance 1 7 = 6 ∧
    (1 ≤ k1 → k1 ≤ 12 → 1 ≤ k2 → k2 ≤ 12 → getKeyDistance k1 k2 ≤ 6) ∧
    (k1 ≠ k2 → getKeyDistance k1 k2 =
      min ((k2 - k1 + 12) % 12) ((k1 - k2 + 12) % 12)) := by
  refine ⟨by simp [getKeyDistance_def], by decide, by decide, ?_, ?_⟩
  · intro h1 h2 h3 h4
    rcases eq_or_ne k1 k2 with rfl | hne
    · simp [getKeyDistance_def]
    · rw [getKeyDistance_def, if_neg hne]
      rcases le_total ((k2 - k1 + 12) % 12) ((k1 - k2 + 12) % 12) with h | h
      · rw [min_eq_left h]
        omega
      · rw [min_eq_right h]
        omega
  · intro h
    rw [getKeyDistance_def, if_neg h]

/-- Instantiation of the key distance bound at keys 3 and 9, plus the
same-key case at key 5. -/
theorem keyDistance_circular_witness :
    getKeyDistance 3 9 ≤ 6 ∧ getKeyDistance 5 5 = 0 :=
  ⟨(keyDistance_circular 5 3 9).2.2.2.1 (by norm_num) (by norm_num)
      (by norm_num) (by norm_num),
   (keyDistance_circular 5 3 9).1⟩

end DDJ
